import Mathlib

/-!
# Verification of the logpipe log pretty-printer

Shallow embedding of `main.go` from kabooboo/logpipe: a line-oriented JSON
log pretty-printer.  Per line the program attempts `json.Unmarshal` into a
`LogEntry` struct; on decode failure it echoes the (possibly truncated)
line; on success it renders either an HTTP-access template or a generic
template via `printPrettyLog`.

The repository carries two versions of the formatter (the file holds two
concatenated revisions of `main.go`); both are embedded here — the primary
one (`printPrettyLog`, dividing the nanosecond duration by 1000000) and the
older alternate one (`printPrettyLogOld`, dividing by 1000).

Modelling conventions:
* Go strings are modelled as Lean `String`s; Go `len`/slicing act on the
  character list (`.data`), which agrees with the byte view on ASCII data.
* Color application (`fatih/color`) is the identity on text, matching the
  spec's plain-text-equivalence requirement when color is disabled.
* `time.Now()` is an explicit `GoTime` parameter threaded through the
  per-line pipeline, so wall-clock dependence is visible in statements.
* Machine integers (`int`, `int64` on 64-bit targets) are `Int` with
  explicit range checks where the Go library performs them.
-/

/-! ## JSON values and the `encoding/json` syntax

`Json` mirrors the values `encoding/json` produces for an `interface{}`
target, except numbers keep their source literal (the decoder itself works
on literals: integer fields are filled via `strconv.ParseInt` on the
literal, so no float rounding enters the claims verified here). -/

inductive Json where
  | null : Json
  | bool (b : Bool) : Json
  | num (lit : String) : Json
  | str (s : String) : Json
  | arr (elems : List Json) : Json
  | obj (members : List (String × Json)) : Json

/-- Go JSON whitespace (`encoding/json` scanner): space, tab, newline, CR. -/
def isWS (c : Char) : Bool :=
  c.toNat = 32 || c.toNat = 9 || c.toNat = 10 || c.toNat = 13

/-- ASCII decimal digit test, phrased on code points to ease arithmetic. -/
def isDigitC (c : Char) : Bool := decide (48 ≤ c.toNat ∧ c.toNat ≤ 57)

/-- Value of an ASCII decimal digit. -/
def digitVal (c : Char) : Option Nat :=
  if 48 ≤ c.toNat ∧ c.toNat ≤ 57 then some (c.toNat - 48) else none

def skipWS (cs : List Char) : List Char :=
  match cs with
  | [] => []
  | c :: rest => if isWS c then skipWS rest else cs

/-- Split off the longest leading digit run. -/
def takeDigits : List Char → List Char × List Char
  | [] => ([], [])
  | c :: rest =>
    if isDigitC c then
      let p := takeDigits rest
      (c :: p.1, p.2)
    else ([], c :: rest)

def hexVal (c : Char) : Option Nat :=
  if 48 ≤ c.toNat ∧ c.toNat ≤ 57 then some (c.toNat - 48)
  else if 97 ≤ c.toNat ∧ c.toNat ≤ 102 then some (c.toNat - 97 + 10)
  else if 65 ≤ c.toNat ∧ c.toNat ≤ 70 then some (c.toNat - 65 + 10)
  else none

/-- Value of four hex digits (the `XXXX` of a `\uXXXX` escape). -/
def hex4 (a b c d : Char) : Option Nat :=
  match hexVal a, hexVal b, hexVal c, hexVal d with
  | some va, some vb, some vc, some vd =>
    some (va * 4096 + vb * 256 + vc * 16 + vd)
  | _, _, _, _ => none

/-- Code point denoted by each single-character escape the Go JSON
scanner accepts (the eight `\"`, `\\`, `\/`, `\b`, `\f`, `\n`, `\r`,
`\t`); any other escape character is a syntax error. -/
def escCode (c : Char) : Option Nat :=
  if c.toNat = 34 ∨ c.toNat = 92 ∨ c.toNat = 47 then some c.toNat
  else if c = 'b' then some 8
  else if c = 'f' then some 12
  else if c = 'n' then some 10
  else if c = 'r' then some 13
  else if c = 't' then some 9
  else none

/-- Parse a JSON string body after the opening quote, as Go's scanner and
`unquote` do: raw control characters (< 0x20) are rejected, `\uXXXX`
escapes combine surrogate pairs and turn unpaired surrogates into U+FFFD.
Fuel-indexed (each step consumes at least one character, so fuel
`cs.length + 1` never runs dry). -/
def parseStrBody : Nat → List Char → Option (List Char × List Char)
  | 0, _ => none
  | fuel + 1, cs =>
    match cs with
    | '"' :: rest => some ([], rest)
    | '\\' :: 'u' :: a :: b :: c :: d :: rest =>
      (match hex4 a b c d with
      | none => none
      | some n =>
        if 0xD800 ≤ n ∧ n < 0xDC00 then
          match rest with
          | '\\' :: 'u' :: a2 :: b2 :: c2 :: d2 :: rest2 =>
            (match hex4 a2 b2 c2 d2 with
            | some m =>
              if 0xDC00 ≤ m ∧ m < 0xE000 then
                (parseStrBody fuel rest2).map fun (s, r) =>
                  (Char.ofNat (0x10000 + (n - 0xD800) * 0x400 + (m - 0xDC00)) :: s, r)
              else
                (parseStrBody fuel rest).map fun (s, r) => (Char.ofNat 0xFFFD :: s, r)
            | none => (parseStrBody fuel rest).map fun (s, r) => (Char.ofNat 0xFFFD :: s, r))
          | _ => (parseStrBody fuel rest).map fun (s, r) => (Char.ofNat 0xFFFD :: s, r)
        else if 0xDC00 ≤ n ∧ n < 0xE000 then
          (parseStrBody fuel rest).map fun (s, r) => (Char.ofNat 0xFFFD :: s, r)
        else
          (parseStrBody fuel rest).map fun (s, r) => (Char.ofNat n :: s, r))
    | '\\' :: e :: rest =>
      (match escCode e with
      | some n => (parseStrBody fuel rest).map fun (s, r) => (Char.ofNat n :: s, r)
      | none => none)
    | c :: rest =>
      if c.toNat < 32 then none
      else (parseStrBody fuel rest).map fun (s, r) => (c :: s, r)
    | [] => none

/-- Parse a JSON number literal (Go scanner grammar:
`-?(0|[1-9][0-9]*)(\.[0-9]+)?([eE][+-]?[0-9]+)?`); returns the literal. -/
def parseNum (cs : List Char) : Option (Json × List Char) :=
  let (sign, cs1) := match cs with
    | '-' :: r => (['-'], r)
    | _ => (([] : List Char), cs)
  match cs1 with
  | c :: cs2 =>
    if ¬ isDigitC c then none
    else
      -- leading zero may not be followed by another digit
      let intRes : Option (List Char × List Char) :=
        if c == '0' then
          match cs2 with
          | d :: _ => if isDigitC d then none else some (['0'], cs2)
          | [] => some (['0'], cs2)
        else
          let (ds, r) := takeDigits cs2
          some (c :: ds, r)
      match intRes with
      | none => none
      | some (intDs, rest1) =>
        -- optional fraction: '.' followed by at least one digit
        let fracRes : Option (List Char × List Char) :=
          match rest1 with
          | '.' :: r =>
            let (ds, r2) := takeDigits r
            if ds.isEmpty then none else some ('.' :: ds, r2)
          | _ => some ([], rest1)
        match fracRes with
        | none => none
        | some (fracDs, rest2) =>
          -- optional exponent: e/E, optional sign, at least one digit
          let expRes : Option (List Char × List Char) :=
            match rest2 with
            | 'e' :: r =>
              let (sg, r1) := match r with
                | '+' :: r2 => (['+'], r2)
                | '-' :: r2 => (['-'], r2)
                | _ => (([] : List Char), r)
              let (ds, r2) := takeDigits r1
              if ds.isEmpty then none else some ('e' :: (sg ++ ds), r2)
            | 'E' :: r =>
              let (sg, r1) := match r with
                | '+' :: r2 => (['+'], r2)
                | '-' :: r2 => (['-'], r2)
                | _ => (([] : List Char), r)
              let (ds, r2) := takeDigits r1
              if ds.isEmpty then none else some ('E' :: (sg ++ ds), r2)
            | _ => some ([], rest2)
          match expRes with
          | none => none
          | some (expDs, rest3) =>
            some (Json.num (String.mk (sign ++ intDs ++ fracDs ++ expDs)), rest3)
  | [] => none

/-- The scanner's nesting limit (`maxNestingDepth` in
`encoding/json/scanner.go`): a `{` or `[` that would push the parse-state
stack past 10000 entries is a `SyntaxError` ("exceeded max depth"). -/
def maxNestingDepth : Nat := 10000

mutual

/-- Parse one JSON value (fuel-indexed recursive descent over the
`encoding/json` grammar; leading whitespace is skipped).  `depth` counts
the brackets currently open around this value; each `[`/`{` pushes one
more and fails beyond `maxNestingDepth`. -/
def parseVal : Nat → Nat → List Char → Option (Json × List Char)
  | 0, _, _ => none
  | fuel + 1, depth, cs =>
    match skipWS cs with
    | 't' :: 'r' :: 'u' :: 'e' :: rest => some (Json.bool true, rest)
    | 'f' :: 'a' :: 'l' :: 's' :: 'e' :: rest => some (Json.bool false, rest)
    | 'n' :: 'u' :: 'l' :: 'l' :: rest => some (Json.null, rest)
    | '"' :: rest =>
      (parseStrBody (rest.length + 1) rest).map fun (s, r) => (Json.str (String.mk s), r)
    | '[' :: rest =>
      if maxNestingDepth < depth + 1 then none
      else
        (match skipWS rest with
          | ']' :: r2 => some (Json.arr [], r2)
          | r2 => (parseArrElems fuel (depth + 1) r2).map fun (es, r3) => (Json.arr es, r3))
    | c :: rest =>
      if c.toNat = 123 then  -- left brace
        if maxNestingDepth < depth + 1 then none
        else
          match skipWS rest with
          | c2 :: r2 =>
            if c2.toNat = 125 then some (Json.obj [], r2)  -- right brace
            else (parseObjMembers fuel (depth + 1) (c2 :: r2)).map fun (ms, r3) => (Json.obj ms, r3)
          | [] => none
      else if c == '-' || isDigitC c then parseNum (c :: rest)
      else none
    | [] => none

/-- Parse the elements of a non-empty array (after `[`; `depth` is the
array's own nesting depth). -/
def parseArrElems : Nat → Nat → List Char → Option (List Json × List Char)
  | 0, _, _ => none
  | fuel + 1, depth, cs => do
    let (v, r1) ← parseVal fuel depth cs
    match skipWS r1 with
    | ',' :: r2 =>
      let (vs, r3) ← parseArrElems fuel depth r2
      return (v :: vs, r3)
    | ']' :: r2 => return ([v], r2)
    | _ => none

/-- Parse the members of a non-empty object (after the left brace;
`depth` is the object's own nesting depth). -/
def parseObjMembers : Nat → Nat → List Char → Option (List (String × Json) × List Char)
  | 0, _, _ => none
  | fuel + 1, depth, cs =>
    match skipWS cs with
    | '"' :: rest => do
      let (k, r1) ← parseStrBody (rest.length + 1) rest
      match skipWS r1 with
      | ':' :: r2 => do
        let (v, r3) ← parseVal fuel depth r2
        match skipWS r3 with
        | ',' :: r4 =>
          let (ms, r5) ← parseObjMembers fuel depth r4
          return ((String.mk k, v) :: ms, r5)
        | c :: r4 =>
          if c.toNat = 125 then return ([(String.mk k, v)], r4)  -- right brace
          else none
        | [] => none
      | _ => none
    | _ => none

end

/-- `encoding/json` top-level decode of one line into a JSON value:
one value, optionally surrounded by whitespace; anything trailing is an
error ("invalid character after top-level value"). -/
def parseJson (s : String) : Option Json :=
  match parseVal (s.data.length + 2) 0 s.data with
  | some (j, rest) => if (skipWS rest).isEmpty then some j else none
  | none => none

/-! ## IEEE-754 binary64: the decoder's and printer's number semantics

A JSON number bound for an `interface{}` field goes through
`strconv.ParseFloat(lit, 64)` (an `UnmarshalTypeError` on float64
overflow), and `fmt`'s `%v` then prints the resulting `float64` with
`strconv.FormatFloat(f, 'g', -1, 64)` — the shortest decimal that reads
back to the same float.  Both directions are modelled exactly with
integer arithmetic: `decodeF64` rounds the literal's exact decimal value
to nearest/ties-to-even binary64 (normals, subnormals, signed zero,
overflow to infinity), and `f64Str` produces the shortest round-tripping
digit string and lays it out with the `'g'`-format rule (scientific form
iff the decimal exponent is below -4 or at least 6). -/

/-- Value of a digit list (most significant first). -/
def digitsValue (ds : List Char) : Nat :=
  ds.foldl (fun a c => a * 10 + (c.toNat - 48)) 0

/-- Split a JSON number literal into sign, mantissa digits (integer and
fraction parts concatenated) and the base-10 exponent of the last digit. -/
def numParts (cs : List Char) : Bool × List Char × Int :=
  let (neg, cs1) := match cs with
    | '-' :: r => (true, r)
    | _ => (false, cs)
  let (ids, r1) := takeDigits cs1
  let (fds, r2) :=
    match r1 with
    | '.' :: r => takeDigits r
    | _ => (([] : List Char), r1)
  let expv : Int :=
    match r2 with
    | 'e' :: '+' :: r => (digitsValue (takeDigits r).1 : Int)
    | 'e' :: '-' :: r => -(digitsValue (takeDigits r).1 : Int)
    | 'e' :: r => (digitsValue (takeDigits r).1 : Int)
    | 'E' :: '+' :: r => (digitsValue (takeDigits r).1 : Int)
    | 'E' :: '-' :: r => -(digitsValue (takeDigits r).1 : Int)
    | 'E' :: r => (digitsValue (takeDigits r).1 : Int)
    | _ => 0
  (neg, ids ++ fds, expv - (fds.length : Int))

/-- A decoded `float64`: signed zero, a finite value `M·2^E` with
`1 ≤ M < 2^53` (and `2^52 ≤ M` unless `E = -1074`), or infinity. -/
inductive F64 where
  | zero (neg : Bool) : F64
  | finite (neg : Bool) (mantissa : Nat) (exponent : Int) : F64
  | inf (neg : Bool) : F64

/-- `2^k ≤ n / d` on exact rationals. -/
def powLe (n d : Nat) (k : Int) : Bool :=
  if 0 ≤ k then decide (2 ^ k.toNat * d ≤ n) else decide (d ≤ n * 2 ^ (-k).toNat)

/-- Bit length (fuel-indexed so that it evaluates by kernel reduction;
any fuel at least the bit length is exact). -/
def bitLenAux : Nat → Nat → Nat
  | 0, _ => 0
  | fuel + 1, n => if n = 0 then 0 else bitLenAux fuel (n / 2) + 1

/-- Round `a / b` to the nearest integer, ties to even. -/
def rheDiv (a b : Nat) : Nat :=
  let q := a / b
  let r := a % b
  if b < 2 * r then q + 1
  else if 2 * r < b then q
  else if q % 2 = 0 then q
  else q + 1

/-- `strconv.ParseFloat(lit, 64)`: round the literal's exact decimal
value to the nearest binary64, ties to even.  The two early guards bound
the arithmetic for extreme exponents without changing the result: any
non-zero value beyond `10^400` overflows, and any value below
`10^-380` rounds to zero (the halfway point to the smallest subnormal is
about `2.5e-324`). -/
def decodeF64 (lit : String) : F64 :=
  let (neg, ds, e10) := numParts lit.data
  let mant := digitsValue ds
  if mant = 0 then F64.zero neg
  else if (400 : Int) < e10 then F64.inf neg
  else if e10 + (ds.length : Int) < -380 then F64.zero neg
  else
    let n := mant * 10 ^ e10.toNat
    let d := 10 ^ (-e10).toNat
    let fl := 4 * (ds.length + 401) + 8
    let k0 : Int := ((bitLenAux fl n : Int) - 1) - ((bitLenAux fl d : Int) - 1)
    let k : Int := if powLe n d k0 then k0 else k0 - 1
    let e0 : Int := k - 52
    let e1 : Int := if e0 < -1074 then -1074 else e0
    let a := n * 2 ^ (-e1).toNat
    let b := d * 2 ^ e1.toNat
    let m0 := rheDiv a b
    let m := if m0 = 2 ^ 53 then 2 ^ 52 else m0
    let e2 : Int := if m0 = 2 ^ 53 then e1 + 1 else e1
    if m = 0 then F64.zero neg
    else if (971 : Int) < e2 then F64.inf neg
    else F64.finite neg m e2

def ceilDiv (a b : Nat) : Nat := (a + b - 1) / b

/-- Drop trailing zero digits, moving them into the exponent. -/
def stripZeros : Nat → Nat × Int → Nat × Int
  | 0, p => p
  | fuel + 1, (q, t) =>
    if q % 10 = 0 ∧ q ≠ 0 then stripZeros fuel (q / 10, t + 1) else (q, t)

/-- One length of the shortest-digits search: is there a decimal
`q·10^t` inside the rounding interval `(w, u)` (endpoints included when
the mantissa is even, as ties round back to it)?  If so, return the
acceptable `q` nearest to the value (ties to even). -/
def shortestAt (ev : Bool) (vnum wnum unum den : Nat) (t : Int) : Option Nat :=
  let p := 10 ^ t.toNat
  let q10 := 10 ^ (-t).toNat
  let x := p * 2 ^ den
  let wq := wnum * q10
  let uq := unum * q10
  let vq := vnum * q10
  let qmin := if ev then ceilDiv wq x else wq / x + 1
  let qmax := if ev then uq / x else (if uq % x = 0 then uq / x - 1 else uq / x)
  if qmin ≤ qmax then
    let q := rheDiv vq x
    some (if q < qmin then qmin else if qmax < q then qmax else q)
  else none

/-- Try significand lengths `n, n+1, ...` until one admits a decimal in
the rounding interval; 17 digits always suffice for binary64, the fuel
only serves totality. -/
def shortestLoop (ev : Bool) (vnum wnum unum den : Nat) (x10 : Int) :
    Nat → Nat → Nat × Int
  | 0, _ => (1, x10)
  | fuel + 1, n =>
    let t := x10 - (n : Int) + 1
    match shortestAt ev vnum wnum unum den t with
    | some q => (q, t)
    | none => shortestLoop ev vnum wnum unum den x10 fuel (n + 1)

/-- Shortest round-tripping decimal of the finite float `M·2^E`, as a
trailing-zero-free significand `q` and exponent `t` with value
`q·10^t`.  `w`/`v`/`u` are the lower rounding boundary, the value and
the upper rounding boundary over the common denominator `2^den`; the
lower gap is halved at a power-of-two mantissa (except at the subnormal
boundary, where the spacing does not change). -/
def f64Shortest (M : Nat) (E : Int) : Nat × Int :=
  let den : Nat := if E < 2 then (2 - E).toNat else 0
  let vnum := M * 2 ^ (E + den).toNat
  let unum := (2 * M + 1) * 2 ^ (E - 1 + den).toNat
  let wnum :=
    if M = 2 ^ 52 ∧ -1074 < E then (4 * M - 1) * 2 ^ (E - 2 + den).toNat
    else (2 * M - 1) * 2 ^ (E - 1 + den).toNat
  let p400 := vnum * 10 ^ 400 / 2 ^ den
  let x10 : Int := ((Nat.toDigits 10 p400).length : Int) - 401
  let ev : Bool := decide (M % 2 = 0)
  let (q, t) := shortestLoop ev vnum wnum unum den x10 18 1
  stripZeros 20 (q, t)

/-- `strconv.FormatFloat(f, 'g', -1, 64)`, the rendering `%v` uses for a
`float64`: shortest digits, scientific form iff the decimal exponent is
below `-4` or at least `6`, exponent written with sign and at least two
digits. -/
def f64Str : F64 → String
  | F64.zero neg => if neg then "-0" else "0"
  | F64.inf neg => if neg then "-Inf" else "+Inf"
  | F64.finite neg M E =>
    let (q, t) := f64Shortest M E
    let ds := Nat.toDigits 10 q
    let nd := ds.length
    let dp : Int := t + nd
    let ex : Int := dp - 1
    let body :=
      if ex < -4 ∨ 6 ≤ ex then
        String.mk (ds.take 1) ++
        (if 1 < nd then "." ++ String.mk (ds.drop 1) else "") ++
        "e" ++ (if ex < 0 then "-" else "+") ++
        (let ea := (if ex < 0 then -ex else ex).toNat
          if ea < 10 then "0" ++ toString ea else toString ea)
      else
        if dp ≤ 0 then
          "0." ++ String.mk (List.replicate (-dp).toNat '0') ++ String.mk ds
        else if (nd : Int) ≤ dp then
          String.mk ds ++ String.mk (List.replicate (dp - nd).toNat '0')
        else
          String.mk (ds.take dp.toNat) ++ "." ++ String.mk (ds.drop dp.toNat)
    (if neg then "-" else "") ++ body

mutual

/-- Does every number literal in the value convert to a finite
`float64`?  `json.Unmarshal` runs every number bound for an
`interface{}` (also inside nested maps and slices) through
`strconv.ParseFloat` and fails on overflow. -/
def numsOk : Json → Bool
  | Json.num lit =>
    (match decodeF64 lit with
      | F64.inf _ => false
      | _ => true)
  | Json.arr xs => numsOkList xs
  | Json.obj ms => numsOkPairs ms
  | _ => true

def numsOkList : List Json → Bool
  | [] => true
  | x :: xs => numsOk x && numsOkList xs

def numsOkPairs : List (String × Json) → Bool
  | [] => true
  | m :: ms => numsOk m.2 && numsOkPairs ms

end

/-! ## Go time: `time.Parse(time.RFC3339)` and `Format("15:04:05.000")`

`printPrettyLog` displays only the clock-of-day of the parsed instant, in
the fixed zone carried by the RFC3339 string itself, so the display equals
the literal `HH:MM:SS` of the string plus its first three fractional
digits.  `GoTime` carries exactly these display fields.  The parser below
models `time.Parse(time.RFC3339, s)`: the RFC3339 fast path of
`time/format.go` together with the one extra acceptance of the general
layout parser it falls back to (a comma as fraction separator).  That is:
full date validation, `T` separator, 0-23/0-59/0-59 clock, an optional
fraction after `.` or `,`, and a `Z` or `±HH:MM` zone with nothing
trailing. -/

structure GoTime where
  hour : Nat := 0
  min : Nat := 0
  sec : Nat := 0
  millis : Nat := 0
deriving DecidableEq

def isLeap (y : Nat) : Bool := y % 4 == 0 && (y % 100 != 0 || y % 400 == 0)

def daysIn (month year : Nat) : Nat :=
  if month == 2 then (if isLeap year then 29 else 28)
  else if month == 4 || month == 6 || month == 9 || month == 11 then 30
  else 31

def digit2 (a b : Char) : Option Nat := do
  let x ← digitVal a
  let y ← digitVal b
  return x * 10 + y

/-- Value of the first (at most three) fractional-second digits, scaled to
milliseconds — what `Format("15:04:05.000")` shows after Go truncates the
fraction to nanoseconds. -/
def millisOf : List Char → Option Nat
  | [] => none
  | [a] => (digitVal a).map (· * 100)
  | [a, b] =>
    match digitVal a, digitVal b with
    | some x, some y => some (x * 100 + y * 10)
    | _, _ => none
  | a :: b :: c :: _ =>
    match digitVal a, digitVal b, digitVal c with
    | some x, some y, some z => some (x * 100 + y * 10 + z)
    | _, _, _ => none

/-- A valid RFC3339 numeric zone suffix: `Z` or `±HH:MM` and nothing after. -/
def zoneOK : List Char → Bool
  | ['Z'] => true
  | [sg, a, b, ':', c, d] =>
    (sg == '+' || sg == '-') &&
    (match digit2 a b, digit2 c d with
      | some hh, some mm => decide (hh ≤ 23) && decide (mm ≤ 59)
      | _, _ => false)
  | _ => false

/-- The optional fraction after the seconds field: consumed only when a
digit follows a period or a comma (the general parser that
`time.Parse(RFC3339, ·)` falls back to uses `commaOrPeriod`, so the
formally-invalid comma separator is accepted: Go's
`len(s) >= 2 && commaOrPeriod(s[0]) && isDigit(s, 1)`); yields the
millisecond display value and the remaining (zone) characters. -/
def fracSplit (rest : List Char) : Option (Nat × List Char) :=
  match rest with
  | c0 :: c :: r =>
    if (c0.toNat = 46 ∨ c0.toNat = 44) ∧ isDigitC c then
      (millisOf (takeDigits (c :: r)).1).map fun m => (m, (takeDigits (c :: r)).2)
    else some (0, c0 :: c :: r)
  | _ => some ((0 : Nat), rest)

/-- `time.Parse(time.RFC3339, s)`, reduced to the displayed clock fields.
The shape and in-range guards are those of Go's RFC3339 fast path, which
coincide with the general layout parser it falls back to except for the
comma fraction separator, handled in `fracSplit`.  A failure of any guard
makes `time.Parse` return an error (here `none`). -/
def parseRFC3339 (s : String) : Option GoTime :=
  match s.data with
  | y1 :: y2 :: y3 :: y4 :: '-' :: mo1 :: mo2 :: '-' :: d1 :: d2 :: 'T' ::
      h1 :: h2 :: ':' :: mi1 :: mi2 :: ':' :: s1 :: s2 :: rest =>
    (match digitVal y1, digitVal y2, digitVal y3, digitVal y4, digit2 mo1 mo2,
        digit2 d1 d2, digit2 h1 h2, digit2 mi1 mi2, digit2 s1 s2 with
    | some ya, some yb, some yc, some yd, some month, some day, some hour,
        some minute, some second =>
      if 1 ≤ month ∧ month ≤ 12 ∧
          1 ≤ day ∧ day ≤ daysIn month (((ya * 10 + yb) * 10 + yc) * 10 + yd) ∧
          hour ≤ 23 ∧ minute ≤ 59 ∧ second ≤ 59 then
        match fracSplit rest with
        | some (millis, rest2) =>
          if zoneOK rest2 then some ⟨hour, minute, second, millis⟩ else none
        | none => none
      else none
    | _, _, _, _, _, _, _, _, _ => none)
  | _ => none

/-- Zero-pad to two digits (Go `Format` verb `15`, `04`, `05`). -/
def pad2 (n : Nat) : String := if n < 10 then "0" ++ toString n else toString n

/-- Zero-pad to three digits (Go `Format` verb `.000`). -/
def pad3 (n : Nat) : String :=
  if n < 10 then "00" ++ toString n
  else if n < 100 then "0" ++ toString n
  else toString n

/-- `timestamp.Format("15:04:05.000")` on the displayed clock fields. -/
def formatHMS (t : GoTime) : String :=
  pad2 t.hour ++ ":" ++ pad2 t.min ++ ":" ++ pad2 t.sec ++ "." ++ pad3 t.millis

/-- `timestamp.Format("15:04:05")`, used by the older formatter revision. -/
def formatHMSOld (t : GoTime) : String :=
  pad2 t.hour ++ ":" ++ pad2 t.min ++ ":" ++ pad2 t.sec

/-- A `GoTime` whose fields are in clock range — an invariant of every Go
`time.Time` (in particular of `time.Now()`) and of every parse result. -/
def GoTime.valid (t : GoTime) : Prop :=
  t.hour < 24 ∧ t.min < 60 ∧ t.sec < 60 ∧ t.millis < 1000

instance (t : GoTime) : Decidable t.valid := by unfold GoTime.valid; infer_instance

/-- Syntactic shape `DD:DD:DD.DDD` of a rendered timestamp. -/
def isValidHMS (s : String) : Bool :=
  match s.data with
  | [a, b, ':', c, d, ':', e, f, '.', g, h, i] =>
    isDigitC a && isDigitC b && isDigitC c && isDigitC d &&
    isDigitC e && isDigitC f && isDigitC g && isDigitC h && isDigitC i
  | _ => false

/-! ## The `LogEntry` struct and `json.Unmarshal` into it

Field-for-field embedding of the `LogEntry` struct of `main.go` (zero
values as defaults).  `json.Unmarshal` semantics for this struct shape:
a top-level JSON `null` is a successful no-op; a top-level object is
decoded member by member (later duplicates overwrite); any other
top-level value is an error.  Per member: unknown keys are skipped; keys
are matched against the field tags case-insensitively (`strings.EqualFold`,
here in its ASCII part — all tags are ASCII); `null` values leave the
field untouched; a string field requires a JSON string, an int field a
JSON integer literal in `int64` range (`strconv.ParseInt`), a nested
struct field an object (decoded recursively into the current value), and
an `interface{}` field accepts anything (with `null` becoming `nil`).
Any mismatch makes `Unmarshal` return an error, which is all the caller
observes. -/

structure BodyInfo where
  bytes : Int := 0
deriving DecidableEq

structure RequestInfo where
  body : BodyInfo := {}
  id : String := ""
  method : String := ""
  time : String := ""
deriving DecidableEq

structure ResponseInfo where
  body : BodyInfo := {}
  mimeType : String := ""
  statusCode : Int := 0
deriving DecidableEq

structure HTTPInfo where
  request : RequestInfo := {}
  response : ResponseInfo := {}
  version : String := ""
deriving DecidableEq

structure FileInfo where
  line : Int := 0
  name : String := ""
deriving DecidableEq

structure OriginInfo where
  file : FileInfo := {}
  function : String := ""
deriving DecidableEq

structure LogInfo where
  logger : String := ""
  original : String := ""
  origin : OriginInfo := {}
deriving DecidableEq

structure ThreadInfo where
  id : Int := 0
  name : String := ""
deriving DecidableEq

structure ProcessInfo where
  name : String := ""
  pid : Int := 0
  thread : ThreadInfo := {}
deriving DecidableEq

structure ServiceInfo where
  version : String := ""
deriving DecidableEq

structure SourceInfo where
  ip : String := ""
deriving DecidableEq

structure DestinationInfo where
  domain : String := ""
deriving DecidableEq

structure EventInfo where
  duration : Int := 0
deriving DecidableEq

structure URLInfo where
  domain : String := ""
  path : String := ""
  pathTemplate : String := ""
  port : Int := 0
  query : String := ""
  scheme : String := ""
deriving DecidableEq

structure UserAgentInfo where
  original : String := ""
deriving DecidableEq

structure LogEntry where
  timestamp : String := ""
  level : String := ""
  message : String := ""
  category : String := ""
  error : Option Json := none
  destination : DestinationInfo := {}
  event : EventInfo := {}
  http : HTTPInfo := {}
  log : LogInfo := {}
  process : ProcessInfo := {}
  service : ServiceInfo := {}
  source : SourceInfo := {}
  span : Option Json := none
  trace : Option Json := none
  url : URLInfo := {}
  userAgent : UserAgentInfo := {}
  version : String := ""

/-- The decoder's key/field-name fold (`foldName` in
`encoding/json/fold.go`, Unicode simple case folding).  All field tags of
`LogEntry` are ASCII, and the only non-ASCII code points whose fold orbit
meets ASCII are U+017F LATIN SMALL LETTER LONG S (folds with `s`/`S`) and
U+212A KELVIN SIGN (folds with `k`/`K`); so against an ASCII tag this
per-character fold decides key equality exactly.  (Non-ASCII pairs that
fold onto each other but not onto ASCII can never match an ASCII tag
either way.) -/
def foldChar (c : Char) : Char :=
  if 65 ≤ c.toNat ∧ c.toNat ≤ 90 then Char.ofNat (c.toNat + 32)
  else if c.toNat = 0x17F then 's'
  else if c.toNat = 0x212A then 'k'
  else c

def eqFold (a b : String) : Bool := a.data.map foldChar == b.data.map foldChar

/-- `strconv.ParseInt(lit, 10, 64)` on a JSON number literal: only an
optionally-signed digit string in `int64` range converts. -/
def decDigitsAux : Nat → List Char → Option Nat
  | acc, [] => some acc
  | acc, c :: cs =>
    match digitVal c with
    | some d => decDigitsAux (acc * 10 + d) cs
    | none => none

def parseInt64 (s : String) : Option Int :=
  match s.data with
  | [] => none
  | '-' :: rest =>
    match rest with
    | [] => none
    | _ => (decDigitsAux 0 rest).bind fun n =>
        if n ≤ 2 ^ 63 then some (-(n : Int)) else none
  | cs => (decDigitsAux 0 cs).bind fun n =>
      if n < 2 ^ 63 then some ((n : Int)) else none

/-- Decode an object's members left to right into an accumulator, stopping
at the first error — the success/failure behavior of the Go decoder's
object loop as observed through `Unmarshal`'s error return. -/
def foldMembers {α : Type} (f : α → String × Json → Option α) :
    α → List (String × Json) → Option α
  | a, [] => some a
  | a, m :: ms =>
    match f a m with
    | none => none
    | some a' => foldMembers f a' ms

/-- Decode a JSON value into a string field (`null` keeps the old value). -/
def setStrField (v : Json) (old : String) : Option String :=
  match v with
  | Json.null => some old
  | Json.str s => some s
  | _ => none

/-- Decode a JSON value into an int/int64 field. -/
def setIntField (v : Json) (old : Int) : Option Int :=
  match v with
  | Json.null => some old
  | Json.num lit => parseInt64 lit
  | _ => none

/-- Decode a JSON value into an `interface{}` field: `null` becomes nil,
everything else is stored as-is — except that every number in the value
runs through `strconv.ParseFloat` and an overflow to infinity anywhere
makes `Unmarshal` fail (`UnmarshalTypeError`). -/
def toIface (v : Json) : Option (Option Json) :=
  if numsOk v then
    some (match v with
      | Json.null => none
      | v => some v)
  else none

def stepBody (b : BodyInfo) (m : String × Json) : Option BodyInfo :=
  if eqFold m.1 ("bytes") then (setIntField m.2 b.bytes).map fun n => { b with bytes := n }
  else some b

def unmarshalBody (b : BodyInfo) (v : Json) : Option BodyInfo :=
  match v with
  | Json.null => some b
  | Json.obj ms => foldMembers stepBody b ms
  | _ => none

def stepRequest (r : RequestInfo) (m : String × Json) : Option RequestInfo :=
  if eqFold m.1 ("body") then (unmarshalBody r.body m.2).map fun x => { r with body := x }
  else if eqFold m.1 ("id") then (setStrField m.2 r.id).map fun s => { r with id := s }
  else if eqFold m.1 ("method") then (setStrField m.2 r.method).map fun s => { r with method := s }
  else if eqFold m.1 ("time") then (setStrField m.2 r.time).map fun s => { r with time := s }
  else some r

def unmarshalRequest (r : RequestInfo) (v : Json) : Option RequestInfo :=
  match v with
  | Json.null => some r
  | Json.obj ms => foldMembers stepRequest r ms
  | _ => none

def stepResponse (r : ResponseInfo) (m : String × Json) : Option ResponseInfo :=
  if eqFold m.1 ("body") then (unmarshalBody r.body m.2).map fun x => { r with body := x }
  else if eqFold m.1 ("mime_type") then (setStrField m.2 r.mimeType).map fun s => { r with mimeType := s }
  else if eqFold m.1 ("status_code") then (setIntField m.2 r.statusCode).map fun n => { r with statusCode := n }
  else some r

def unmarshalResponse (r : ResponseInfo) (v : Json) : Option ResponseInfo :=
  match v with
  | Json.null => some r
  | Json.obj ms => foldMembers stepResponse r ms
  | _ => none

def stepHTTP (h : HTTPInfo) (m : String × Json) : Option HTTPInfo :=
  if eqFold m.1 ("request") then (unmarshalRequest h.request m.2).map fun x => { h with request := x }
  else if eqFold m.1 ("response") then (unmarshalResponse h.response m.2).map fun x => { h with response := x }
  else if eqFold m.1 ("version") then (setStrField m.2 h.version).map fun s => { h with version := s }
  else some h

def unmarshalHTTP (h : HTTPInfo) (v : Json) : Option HTTPInfo :=
  match v with
  | Json.null => some h
  | Json.obj ms => foldMembers stepHTTP h ms
  | _ => none

def stepFile (f : FileInfo) (m : String × Json) : Option FileInfo :=
  if eqFold m.1 ("line") then (setIntField m.2 f.line).map fun n => { f with line := n }
  else if eqFold m.1 ("name") then (setStrField m.2 f.name).map fun s => { f with name := s }
  else some f

def unmarshalFile (f : FileInfo) (v : Json) : Option FileInfo :=
  match v with
  | Json.null => some f
  | Json.obj ms => foldMembers stepFile f ms
  | _ => none

def stepOrigin (o : OriginInfo) (m : String × Json) : Option OriginInfo :=
  if eqFold m.1 ("file") then (unmarshalFile o.file m.2).map fun x => { o with file := x }
  else if eqFold m.1 ("function") then (setStrField m.2 o.function).map fun s => { o with function := s }
  else some o

def unmarshalOrigin (o : OriginInfo) (v : Json) : Option OriginInfo :=
  match v with
  | Json.null => some o
  | Json.obj ms => foldMembers stepOrigin o ms
  | _ => none

def stepLog (l : LogInfo) (m : String × Json) : Option LogInfo :=
  if eqFold m.1 ("logger") then (setStrField m.2 l.logger).map fun s => { l with logger := s }
  else if eqFold m.1 ("original") then (setStrField m.2 l.original).map fun s => { l with original := s }
  else if eqFold m.1 ("origin") then (unmarshalOrigin l.origin m.2).map fun x => { l with origin := x }
  else some l

def unmarshalLog (l : LogInfo) (v : Json) : Option LogInfo :=
  match v with
  | Json.null => some l
  | Json.obj ms => foldMembers stepLog l ms
  | _ => none

def stepThread (t : ThreadInfo) (m : String × Json) : Option ThreadInfo :=
  if eqFold m.1 ("id") then (setIntField m.2 t.id).map fun n => { t with id := n }
  else if eqFold m.1 ("name") then (setStrField m.2 t.name).map fun s => { t with name := s }
  else some t

def unmarshalThread (t : ThreadInfo) (v : Json) : Option ThreadInfo :=
  match v with
  | Json.null => some t
  | Json.obj ms => foldMembers stepThread t ms
  | _ => none

def stepProcess (p : ProcessInfo) (m : String × Json) : Option ProcessInfo :=
  if eqFold m.1 ("name") then (setStrField m.2 p.name).map fun s => { p with name := s }
  else if eqFold m.1 ("pid") then (setIntField m.2 p.pid).map fun n => { p with pid := n }
  else if eqFold m.1 ("thread") then (unmarshalThread p.thread m.2).map fun x => { p with thread := x }
  else some p

def unmarshalProcess (p : ProcessInfo) (v : Json) : Option ProcessInfo :=
  match v with
  | Json.null => some p
  | Json.obj ms => foldMembers stepProcess p ms
  | _ => none

def stepService (s : ServiceInfo) (m : String × Json) : Option ServiceInfo :=
  if eqFold m.1 ("version") then (setStrField m.2 s.version).map fun x => { s with version := x }
  else some s

def unmarshalService (s : ServiceInfo) (v : Json) : Option ServiceInfo :=
  match v with
  | Json.null => some s
  | Json.obj ms => foldMembers stepService s ms
  | _ => none

def stepSource (s : SourceInfo) (m : String × Json) : Option SourceInfo :=
  if eqFold m.1 ("ip") then (setStrField m.2 s.ip).map fun x => { s with ip := x }
  else some s

def unmarshalSource (s : SourceInfo) (v : Json) : Option SourceInfo :=
  match v with
  | Json.null => some s
  | Json.obj ms => foldMembers stepSource s ms
  | _ => none

def stepDestination (d : DestinationInfo) (m : String × Json) : Option DestinationInfo :=
  if eqFold m.1 ("domain") then (setStrField m.2 d.domain).map fun x => { d with domain := x }
  else some d

def unmarshalDestination (d : DestinationInfo) (v : Json) : Option DestinationInfo :=
  match v with
  | Json.null => some d
  | Json.obj ms => foldMembers stepDestination d ms
  | _ => none

def stepEvent (e : EventInfo) (m : String × Json) : Option EventInfo :=
  if eqFold m.1 ("duration") then (setIntField m.2 e.duration).map fun n => { e with duration := n }
  else some e

def unmarshalEvent (e : EventInfo) (v : Json) : Option EventInfo :=
  match v with
  | Json.null => some e
  | Json.obj ms => foldMembers stepEvent e ms
  | _ => none

def stepURL (u : URLInfo) (m : String × Json) : Option URLInfo :=
  if eqFold m.1 ("domain") then (setStrField m.2 u.domain).map fun s => { u with domain := s }
  else if eqFold m.1 ("path") then (setStrField m.2 u.path).map fun s => { u with path := s }
  else if eqFold m.1 ("path_template") then (setStrField m.2 u.pathTemplate).map fun s => { u with pathTemplate := s }
  else if eqFold m.1 ("port") then (setIntField m.2 u.port).map fun n => { u with port := n }
  else if eqFold m.1 ("query") then (setStrField m.2 u.query).map fun s => { u with query := s }
  else if eqFold m.1 ("scheme") then (setStrField m.2 u.scheme).map fun s => { u with scheme := s }
  else some u

def unmarshalURL (u : URLInfo) (v : Json) : Option URLInfo :=
  match v with
  | Json.null => some u
  | Json.obj ms => foldMembers stepURL u ms
  | _ => none

def stepUserAgent (u : UserAgentInfo) (m : String × Json) : Option UserAgentInfo :=
  if eqFold m.1 ("original") then (setStrField m.2 u.original).map fun s => { u with original := s }
  else some u

def unmarshalUserAgent (u : UserAgentInfo) (v : Json) : Option UserAgentInfo :=
  match v with
  | Json.null => some u
  | Json.obj ms => foldMembers stepUserAgent u ms
  | _ => none

def stepEntry (e : LogEntry) (m : String × Json) : Option LogEntry :=
  if eqFold m.1 ("@timestamp") then (setStrField m.2 e.timestamp).map fun s => { e with timestamp := s }
  else if eqFold m.1 ("log.level") then (setStrField m.2 e.level).map fun s => { e with level := s }
  else if eqFold m.1 ("message") then (setStrField m.2 e.message).map fun s => { e with message := s }
  else if eqFold m.1 ("category") then (setStrField m.2 e.category).map fun s => { e with category := s }
  else if eqFold m.1 ("error") then (toIface m.2).map fun x => { e with error := x }
  else if eqFold m.1 ("destination") then (unmarshalDestination e.destination m.2).map fun x => { e with destination := x }
  else if eqFold m.1 ("event") then (unmarshalEvent e.event m.2).map fun x => { e with event := x }
  else if eqFold m.1 ("http") then (unmarshalHTTP e.http m.2).map fun x => { e with http := x }
  else if eqFold m.1 ("log") then (unmarshalLog e.log m.2).map fun x => { e with log := x }
  else if eqFold m.1 ("process") then (unmarshalProcess e.process m.2).map fun x => { e with process := x }
  else if eqFold m.1 ("service") then (unmarshalService e.service m.2).map fun x => { e with service := x }
  else if eqFold m.1 ("source") then (unmarshalSource e.source m.2).map fun x => { e with source := x }
  else if eqFold m.1 ("span") then (toIface m.2).map fun x => { e with span := x }
  else if eqFold m.1 ("trace") then (toIface m.2).map fun x => { e with trace := x }
  else if eqFold m.1 ("url") then (unmarshalURL e.url m.2).map fun x => { e with url := x }
  else if eqFold m.1 ("user_agent") then (unmarshalUserAgent e.userAgent m.2).map fun x => { e with userAgent := x }
  else if eqFold m.1 ("version") then (setStrField m.2 e.version).map fun s => { e with version := s }
  else some e

/-- `json.Unmarshal([]byte(line), &logEntry)` on an already-scanned value:
`null` is a no-op success, an object decodes member-wise into the zero
struct, anything else is an `UnmarshalTypeError`. -/
def unmarshalLogEntry (v : Json) : Option LogEntry :=
  match v with
  | Json.null => some {}
  | Json.obj ms => foldMembers stepEntry {} ms
  | _ => none

/-- The decode step of the per-line loop (`json.Unmarshal` on the raw
line): syntax scan plus struct decode; `none` sends the loop into the
truncation fallback. -/
def decodeLine (line : String) : Option LogEntry :=
  (parseJson line).bind unmarshalLogEntry

/-! ## `fmt.Sprintf("%v", ...)` on a decoded `interface{}` value

Values decoded from JSON into `interface{}` print under `%v` as: `nil` →
`<nil>`, strings raw, booleans `true`/`false`, arrays space-separated in
brackets, and maps as `map[k1:v1 k2:v2]` with keys in sorted (byte-wise,
equivalently code-point-wise) order — `fmt` sorts map keys.  Duplicate
object keys collapse to the last occurrence, because the decoder built a
`map[string]interface{}` before printing.  Numbers were decoded to
`float64`, so they print via `f64Str` — `FormatFloat(f, 'g', -1, 64)`. -/

def joinSp : List String → String
  | [] => ""
  | [s] => s
  | s :: rest => s ++ " " ++ joinSp rest

/-- Last-occurrence-wins key collapse (building the Go map). -/
def dedupPairs (ms : List (String × String)) : List (String × String) :=
  ms.foldl (fun acc m => acc.filter (fun x => x.1 != m.1) ++ [m]) []

/-- Code-point lexicographic order on strings, the order `fmt` sorts
string map keys in (byte-wise on UTF-8, which agrees with code points). -/
def charsLt : List Char → List Char → Bool
  | [], [] => false
  | [], _ :: _ => true
  | _ :: _, [] => false
  | a :: as, b :: bs =>
    if a.toNat < b.toNat then true
    else if b.toNat < a.toNat then false
    else charsLt as bs

def insertSorted (x : String × String) : List (String × String) → List (String × String)
  | [] => [x]
  | y :: ys => if charsLt x.1.data y.1.data then x :: y :: ys else y :: insertSorted x ys

def sortPairs (ms : List (String × String)) : List (String × String) :=
  ms.foldr insertSorted []

mutual

def goV : Json → String
  | Json.null => "<nil>"
  | Json.bool b => if b then "true" else "false"
  | Json.num lit => f64Str (decodeF64 lit)
  | Json.str s => s
  | Json.arr xs => "[" ++ joinSp (goVList xs) ++ "]"
  | Json.obj ms =>
    "map[" ++ joinSp ((sortPairs (dedupPairs (goVPairs ms))).map fun p => p.1 ++ ":" ++ p.2) ++ "]"

def goVList : List Json → List String
  | [] => []
  | x :: xs => goV x :: goVList xs

def goVPairs : List (String × Json) → List (String × String)
  | [] => []
  | m :: ms => (m.1, goV m.2) :: goVPairs ms

end

/-! ## The formatter (`printPrettyLog`), both revisions, and the loop

Character-level models of Go `len`/slicing and of the `fmt` width verbs
used by the format strings (`%-4s`, `%-5s`, `%d`). -/

def strTake (s : String) (n : Nat) : String := String.mk (s.data.take n)

/-- `%-Ns`: left-justify, pad with spaces to width `n` (never truncates). -/
def padRight (s : String) (n : Nat) : String :=
  s ++ String.mk (List.replicate (n - s.data.length) ' ')

/-- `log.Level[:min(4, len(log.Level))]` rendered through `%-4s`. -/
def levelDisp (lvl : String) : String := padRight (strTake lvl 4) 4

/-- The user-agent truncation of the primary formatter:
`if len(userAgent) > 50 { userAgent = userAgent[:50] }`. -/
def uaDisp (ua : String) : String :=
  if 50 < ua.data.length then strTake ua 50 else ua

/-- `fmt.Sprintf("%dms", log.Event.Duration/1000000)` — Go `int64`
division truncates toward zero. -/
def durMs (d : Int) : String := toString (Int.tdiv d 1000000) ++ "ms"

/-- ` error=<value>` suffix of the generic template, present exactly when
the decoded `error` interface is non-nil. -/
def errSuffix : Option Json → String
  | none => ""
  | some v => " error=" ++ goV v

/-- The HTTP-access template of the primary `printPrettyLog`
(`"%s [%s] %s %s %s %s %s %s\n"`). -/
def httpLine (t : GoTime) (e : LogEntry) : String :=
  (formatHMS t ++ " [" ++ levelDisp e.level ++ "] " ++
    padRight e.http.request.method 4 ++ " " ++
    toString e.http.response.statusCode ++ " " ++
    e.url.path ++ " " ++
    durMs e.event.duration ++ " " ++
    "ua=" ++ uaDisp e.userAgent.original ++ " " ++
    e.message) ++ "\n"

/-- The generic template of the primary `printPrettyLog`
(`"%s [%s] %s"`, optional error suffix, closing `Println`). -/
def genericLine (t : GoTime) (e : LogEntry) : String :=
  (formatHMS t ++ " [" ++ levelDisp e.level ++ "] " ++ e.message ++
    errSuffix e.error) ++ "\n"

/-- The primary formatter: parse the timestamp (falling back to the
current time `now`), then branch on the HTTP-access classification.  The
resolved display time `(parseRFC3339 e.timestamp).getD now` is computed
once in the Go code; it is spelled out in both branches here. -/
def printPrettyLog (now : GoTime) (e : LogEntry) : String :=
  if e.category == "http" && e.http.request.method != "" then
    httpLine ((parseRFC3339 e.timestamp).getD now) e
  else
    genericLine ((parseRFC3339 e.timestamp).getD now) e

/-- Duration conversion of the older formatter revision:
`log.Event.Duration/1000` rendered as milliseconds. -/
def durMsOld (d : Int) : String := toString (Int.tdiv d 1000) ++ "ms"

/-- `%-5s` level field of the older revision (no 4-character cut). -/
def levelDispOld (lvl : String) : String := padRight lvl 5

/-- The HTTP-access template of the older revision: second-precision
timestamp, `from=<ip>`, `/1000` duration, untruncated user agent, no
message. -/
def httpLineOld (t : GoTime) (e : LogEntry) : String :=
  (formatHMSOld t ++ " [" ++ levelDispOld e.level ++ "] " ++
    padRight e.http.request.method 4 ++ " " ++
    toString e.http.response.statusCode ++ " " ++
    e.url.path ++ " " ++
    "from=" ++ e.source.ip ++ " " ++
    durMsOld e.event.duration ++ " " ++
    "ua=" ++ e.userAgent.original) ++ "\n"

/-- The generic template of the older revision. -/
def genericLineOld (t : GoTime) (e : LogEntry) : String :=
  (formatHMSOld t ++ " [" ++ levelDispOld e.level ++ "] " ++ e.message ++
    errSuffix e.error) ++ "\n"

/-- The alternate/duplicate formatter found in the repository's second
`main.go` revision. -/
def printPrettyLogOld (now : GoTime) (e : LogEntry) : String :=
  if e.category == "http" && e.http.request.method != "" then
    httpLineOld ((parseRFC3339 e.timestamp).getD now) e
  else
    genericLineOld ((parseRFC3339 e.timestamp).getD now) e

/-- The unparsed-line fallback of the stream loop: lines longer than 120
characters are cut to 120 plus `...`; `Printf("%s...\n", line[:120])` /
`Println(line)`. -/
def fallbackLine (line : String) : String :=
  (if 120 < line.data.length then strTake line 120 ++ "..." else line) ++ "\n"

/-- One iteration of the stream loop on one input line, with the current
wall-clock time passed explicitly. -/
def processLine (now : GoTime) (line : String) : String :=
  match decodeLine line with
  | none => fallbackLine line
  | some e => printPrettyLog now e

/-- The scanner loop: one output chunk per input line, in order; `nows i`
is the wall clock observed while processing line `i`. -/
def runLoop (nows : Nat → GoTime) : Nat → List String → List String
  | _, [] => []
  | i, line :: rest => processLine (nows i) line :: runLoop nows (i + 1) rest

/-! ## Well-typedness: a declarative characterization of decode success

`memberOk*` re-states, per object member, which shapes decode without an
error; `wellTypedEntry` is the resulting declarative predicate on a
scanned JSON value.  The lemmas below prove it equivalent to success of
the operational member-by-member decoder. -/

def okStr : Json → Bool
  | Json.null => true
  | Json.str _ => true
  | _ => false

def okInt : Json → Bool
  | Json.null => true
  | Json.num lit => (parseInt64 lit).isSome
  | _ => false

def okObjWith (p : String × Json → Bool) : Json → Bool
  | Json.null => true
  | Json.obj ms => ms.all p
  | _ => false

def memberOkBody (m : String × Json) : Bool :=
  if eqFold m.1 ("bytes") then okInt m.2 else true

def memberOkRequest (m : String × Json) : Bool :=
  if eqFold m.1 ("body") then okObjWith memberOkBody m.2
  else if eqFold m.1 ("id") then okStr m.2
  else if eqFold m.1 ("method") then okStr m.2
  else if eqFold m.1 ("time") then okStr m.2
  else true

def memberOkResponse (m : String × Json) : Bool :=
  if eqFold m.1 ("body") then okObjWith memberOkBody m.2
  else if eqFold m.1 ("mime_type") then okStr m.2
  else if eqFold m.1 ("status_code") then okInt m.2
  else true

def memberOkHTTP (m : String × Json) : Bool :=
  if eqFold m.1 ("request") then okObjWith memberOkRequest m.2
  else if eqFold m.1 ("response") then okObjWith memberOkResponse m.2
  else if eqFold m.1 ("version") then okStr m.2
  else true

def memberOkFile (m : String × Json) : Bool :=
  if eqFold m.1 ("line") then okInt m.2
  else if eqFold m.1 ("name") then okStr m.2
  else true

def memberOkOrigin (m : String × Json) : Bool :=
  if eqFold m.1 ("file") then okObjWith memberOkFile m.2
  else if eqFold m.1 ("function") then okStr m.2
  else true

def memberOkLog (m : String × Json) : Bool :=
  if eqFold m.1 ("logger") then okStr m.2
  else if eqFold m.1 ("original") then okStr m.2
  else if eqFold m.1 ("origin") then okObjWith memberOkOrigin m.2
  else true

def memberOkThread (m : String × Json) : Bool :=
  if eqFold m.1 ("id") then okInt m.2
  else if eqFold m.1 ("name") then okStr m.2
  else true

def memberOkProcess (m : String × Json) : Bool :=
  if eqFold m.1 ("name") then okStr m.2
  else if eqFold m.1 ("pid") then okInt m.2
  else if eqFold m.1 ("thread") then okObjWith memberOkThread m.2
  else true

def memberOkService (m : String × Json) : Bool :=
  if eqFold m.1 ("version") then okStr m.2 else true

def memberOkSource (m : String × Json) : Bool :=
  if eqFold m.1 ("ip") then okStr m.2 else true

def memberOkDestination (m : String × Json) : Bool :=
  if eqFold m.1 ("domain") then okStr m.2 else true

def memberOkEvent (m : String × Json) : Bool :=
  if eqFold m.1 ("duration") then okInt m.2 else true

def memberOkURL (m : String × Json) : Bool :=
  if eqFold m.1 ("domain") then okStr m.2
  else if eqFold m.1 ("path") then okStr m.2
  else if eqFold m.1 ("path_template") then okStr m.2
  else if eqFold m.1 ("port") then okInt m.2
  else if eqFold m.1 ("query") then okStr m.2
  else if eqFold m.1 ("scheme") then okStr m.2
  else true

def memberOkUserAgent (m : String × Json) : Bool :=
  if eqFold m.1 ("original") then okStr m.2 else true

def memberOkEntry (m : String × Json) : Bool :=
  if eqFold m.1 ("@timestamp") then okStr m.2
  else if eqFold m.1 ("log.level") then okStr m.2
  else if eqFold m.1 ("message") then okStr m.2
  else if eqFold m.1 ("category") then okStr m.2
  else if eqFold m.1 ("error") then numsOk m.2
  else if eqFold m.1 ("destination") then okObjWith memberOkDestination m.2
  else if eqFold m.1 ("event") then okObjWith memberOkEvent m.2
  else if eqFold m.1 ("http") then okObjWith memberOkHTTP m.2
  else if eqFold m.1 ("log") then okObjWith memberOkLog m.2
  else if eqFold m.1 ("process") then okObjWith memberOkProcess m.2
  else if eqFold m.1 ("service") then okObjWith memberOkService m.2
  else if eqFold m.1 ("source") then okObjWith memberOkSource m.2
  else if eqFold m.1 ("span") then numsOk m.2
  else if eqFold m.1 ("trace") then numsOk m.2
  else if eqFold m.1 ("url") then okObjWith memberOkURL m.2
  else if eqFold m.1 ("user_agent") then okObjWith memberOkUserAgent m.2
  else if eqFold m.1 ("version") then okStr m.2
  else true

/-- A scanned JSON value that `json.Unmarshal` accepts for `LogEntry`:
`null`, or an object all of whose members are well-typed for the schema
(unknown keys are always fine). -/
def wellTypedEntry : Json → Bool
  | Json.null => true
  | Json.obj ms => ms.all memberOkEntry
  | _ => false

theorem isSome_map {α β : Type} (f : α → β) (o : Option α) :
    (o.map f).isSome = o.isSome := by cases o <;> rfl

/-- Success of the member fold only depends on the members, not on the
accumulator: it succeeds exactly when every member passes its check. -/
theorem foldMembers_isSome {α : Type} (f : α → String × Json → Option α)
    (p : String × Json → Bool) (hf : ∀ a m, (f a m).isSome = p m) :
    ∀ (a : α) (ms : List (String × Json)),
      (foldMembers f a ms).isSome = ms.all p := by
  intro a ms
  induction ms generalizing a with
  | nil => rfl
  | cons m ms ih =>
    have hm := hf a m
    simp only [foldMembers, List.all_cons]
    cases h : f a m with
    | none => rw [h] at hm; simp [← hm]
    | some a' => rw [h] at hm; simp [← hm, ih a']

theorem setStrField_isSome (v : Json) (old : String) :
    (setStrField v old).isSome = okStr v := by cases v <;> rfl

theorem setIntField_isSome (v : Json) (old : Int) :
    (setIntField v old).isSome = okInt v := by cases v <;> rfl

theorem toIface_isSome (v : Json) : (toIface v).isSome = numsOk v := by
  cases hn : numsOk v <;> simp [toIface, hn]

theorem stepBody_isSome (b : BodyInfo) (m : String × Json) :
    (stepBody b m).isSome = memberOkBody m := by
  unfold stepBody memberOkBody
  split_ifs <;> simp [isSome_map, setIntField_isSome]

theorem unmarshalBody_isSome (b : BodyInfo) (v : Json) :
    (unmarshalBody b v).isSome = okObjWith memberOkBody v := by
  cases v
  case obj ms => exact foldMembers_isSome stepBody memberOkBody stepBody_isSome b ms
  all_goals rfl

theorem stepRequest_isSome (r : RequestInfo) (m : String × Json) :
    (stepRequest r m).isSome = memberOkRequest m := by
  unfold stepRequest memberOkRequest
  split_ifs <;> simp [isSome_map, setStrField_isSome, unmarshalBody_isSome]

theorem unmarshalRequest_isSome (r : RequestInfo) (v : Json) :
    (unmarshalRequest r v).isSome = okObjWith memberOkRequest v := by
  cases v
  case obj ms => exact foldMembers_isSome stepRequest memberOkRequest stepRequest_isSome r ms
  all_goals rfl

theorem stepResponse_isSome (r : ResponseInfo) (m : String × Json) :
    (stepResponse r m).isSome = memberOkResponse m := by
  unfold stepResponse memberOkResponse
  split_ifs <;> simp [isSome_map, setStrField_isSome, setIntField_isSome, unmarshalBody_isSome]

theorem unmarshalResponse_isSome (r : ResponseInfo) (v : Json) :
    (unmarshalResponse r v).isSome = okObjWith memberOkResponse v := by
  cases v
  case obj ms => exact foldMembers_isSome stepResponse memberOkResponse stepResponse_isSome r ms
  all_goals rfl

theorem stepHTTP_isSome (h : HTTPInfo) (m : String × Json) :
    (stepHTTP h m).isSome = memberOkHTTP m := by
  unfold stepHTTP memberOkHTTP
  split_ifs <;> simp [isSome_map, setStrField_isSome, unmarshalRequest_isSome, unmarshalResponse_isSome]

theorem unmarshalHTTP_isSome (h : HTTPInfo) (v : Json) :
    (unmarshalHTTP h v).isSome = okObjWith memberOkHTTP v := by
  cases v
  case obj ms => exact foldMembers_isSome stepHTTP memberOkHTTP stepHTTP_isSome h ms
  all_goals rfl

theorem stepFile_isSome (f : FileInfo) (m : String × Json) :
    (stepFile f m).isSome = memberOkFile m := by
  unfold stepFile memberOkFile
  split_ifs <;> simp [isSome_map, setStrField_isSome, setIntField_isSome]

theorem unmarshalFile_isSome (f : FileInfo) (v : Json) :
    (unmarshalFile f v).isSome = okObjWith memberOkFile v := by
  cases v
  case obj ms => exact foldMembers_isSome stepFile memberOkFile stepFile_isSome f ms
  all_goals rfl

theorem stepOrigin_isSome (o : OriginInfo) (m : String × Json) :
    (stepOrigin o m).isSome = memberOkOrigin m := by
  unfold stepOrigin memberOkOrigin
  split_ifs <;> simp [isSome_map, setStrField_isSome, unmarshalFile_isSome]

theorem unmarshalOrigin_isSome (o : OriginInfo) (v : Json) :
    (unmarshalOrigin o v).isSome = okObjWith memberOkOrigin v := by
  cases v
  case obj ms => exact foldMembers_isSome stepOrigin memberOkOrigin stepOrigin_isSome o ms
  all_goals rfl

theorem stepLog_isSome (l : LogInfo) (m : String × Json) :
    (stepLog l m).isSome = memberOkLog m := by
  unfold stepLog memberOkLog
  split_ifs <;> simp [isSome_map, setStrField_isSome, unmarshalOrigin_isSome]

theorem unmarshalLog_isSome (l : LogInfo) (v : Json) :
    (unmarshalLog l v).isSome = okObjWith memberOkLog v := by
  cases v
  case obj ms => exact foldMembers_isSome stepLog memberOkLog stepLog_isSome l ms
  all_goals rfl

theorem stepThread_isSome (t : ThreadInfo) (m : String × Json) :
    (stepThread t m).isSome = memberOkThread m := by
  unfold stepThread memberOkThread
  split_ifs <;> simp [isSome_map, setStrField_isSome, setIntField_isSome]

theorem unmarshalThread_isSome (t : ThreadInfo) (v : Json) :
    (unmarshalThread t v).isSome = okObjWith memberOkThread v := by
  cases v
  case obj ms => exact foldMembers_isSome stepThread memberOkThread stepThread_isSome t ms
  all_goals rfl

theorem stepProcess_isSome (p : ProcessInfo) (m : String × Json) :
    (stepProcess p m).isSome = memberOkProcess m := by
  unfold stepProcess memberOkProcess
  split_ifs <;> simp [isSome_map, setStrField_isSome, setIntField_isSome, unmarshalThread_isSome]

theorem unmarshalProcess_isSome (p : ProcessInfo) (v : Json) :
    (unmarshalProcess p v).isSome = okObjWith memberOkProcess v := by
  cases v
  case obj ms => exact foldMembers_isSome stepProcess memberOkProcess stepProcess_isSome p ms
  all_goals rfl

theorem stepService_isSome (s : ServiceInfo) (m : String × Json) :
    (stepService s m).isSome = memberOkService m := by
  unfold stepService memberOkService
  split_ifs <;> simp [isSome_map, setStrField_isSome]

theorem unmarshalService_isSome (s : ServiceInfo) (v : Json) :
    (unmarshalService s v).isSome = okObjWith memberOkService v := by
  cases v
  case obj ms => exact foldMembers_isSome stepService memberOkService stepService_isSome s ms
  all_goals rfl

theorem stepSource_isSome (s : SourceInfo) (m : String × Json) :
    (stepSource s m).isSome = memberOkSource m := by
  unfold stepSource memberOkSource
  split_ifs <;> simp [isSome_map, setStrField_isSome]

theorem unmarshalSource_isSome (s : SourceInfo) (v : Json) :
    (unmarshalSource s v).isSome = okObjWith memberOkSource v := by
  cases v
  case obj ms => exact foldMembers_isSome stepSource memberOkSource stepSource_isSome s ms
  all_goals rfl

theorem stepDestination_isSome (d : DestinationInfo) (m : String × Json) :
    (stepDestination d m).isSome = memberOkDestination m := by
  unfold stepDestination memberOkDestination
  split_ifs <;> simp [isSome_map, setStrField_isSome]

theorem unmarshalDestination_isSome (d : DestinationInfo) (v : Json) :
    (unmarshalDestination d v).isSome = okObjWith memberOkDestination v := by
  cases v
  case obj ms => exact foldMembers_isSome stepDestination memberOkDestination stepDestination_isSome d ms
  all_goals rfl

theorem stepEvent_isSome (e : EventInfo) (m : String × Json) :
    (stepEvent e m).isSome = memberOkEvent m := by
  unfold stepEvent memberOkEvent
  split_ifs <;> simp [isSome_map, setIntField_isSome]

theorem unmarshalEvent_isSome (e : EventInfo) (v : Json) :
    (unmarshalEvent e v).isSome = okObjWith memberOkEvent v := by
  cases v
  case obj ms => exact foldMembers_isSome stepEvent memberOkEvent stepEvent_isSome e ms
  all_goals rfl

theorem stepURL_isSome (u : URLInfo) (m : String × Json) :
    (stepURL u m).isSome = memberOkURL m := by
  unfold stepURL memberOkURL
  split_ifs <;> simp [isSome_map, setStrField_isSome, setIntField_isSome]

theorem unmarshalURL_isSome (u : URLInfo) (v : Json) :
    (unmarshalURL u v).isSome = okObjWith memberOkURL v := by
  cases v
  case obj ms => exact foldMembers_isSome stepURL memberOkURL stepURL_isSome u ms
  all_goals rfl

theorem stepUserAgent_isSome (u : UserAgentInfo) (m : String × Json) :
    (stepUserAgent u m).isSome = memberOkUserAgent m := by
  unfold stepUserAgent memberOkUserAgent
  split_ifs <;> simp [isSome_map, setStrField_isSome]

theorem unmarshalUserAgent_isSome (u : UserAgentInfo) (v : Json) :
    (unmarshalUserAgent u v).isSome = okObjWith memberOkUserAgent v := by
  cases v
  case obj ms => exact foldMembers_isSome stepUserAgent memberOkUserAgent stepUserAgent_isSome u ms
  all_goals rfl

set_option maxHeartbeats 1000000 in
theorem stepEntry_isSome (e : LogEntry) (m : String × Json) :
    (stepEntry e m).isSome = memberOkEntry m := by
  rcases m with ⟨k, v⟩
  unfold stepEntry memberOkEntry
  dsimp only
  by_cases h1 : eqFold k ("@timestamp") = true
  · rw [if_pos h1, if_pos h1, isSome_map, setStrField_isSome]
  rw [if_neg h1, if_neg h1]
  by_cases h2 : eqFold k ("log.level") = true
  · rw [if_pos h2, if_pos h2, isSome_map, setStrField_isSome]
  rw [if_neg h2, if_neg h2]
  by_cases h3 : eqFold k ("message") = true
  · rw [if_pos h3, if_pos h3, isSome_map, setStrField_isSome]
  rw [if_neg h3, if_neg h3]
  by_cases h4 : eqFold k ("category") = true
  · rw [if_pos h4, if_pos h4, isSome_map, setStrField_isSome]
  rw [if_neg h4, if_neg h4]
  by_cases h5 : eqFold k ("error") = true
  · rw [if_pos h5, if_pos h5, isSome_map, toIface_isSome]
  rw [if_neg h5, if_neg h5]
  by_cases h6 : eqFold k ("destination") = true
  · rw [if_pos h6, if_pos h6, isSome_map, unmarshalDestination_isSome]
  rw [if_neg h6, if_neg h6]
  by_cases h7 : eqFold k ("event") = true
  · rw [if_pos h7, if_pos h7, isSome_map, unmarshalEvent_isSome]
  rw [if_neg h7, if_neg h7]
  by_cases h8 : eqFold k ("http") = true
  · rw [if_pos h8, if_pos h8, isSome_map, unmarshalHTTP_isSome]
  rw [if_neg h8, if_neg h8]
  by_cases h9 : eqFold k ("log") = true
  · rw [if_pos h9, if_pos h9, isSome_map, unmarshalLog_isSome]
  rw [if_neg h9, if_neg h9]
  by_cases h10 : eqFold k ("process") = true
  · rw [if_pos h10, if_pos h10, isSome_map, unmarshalProcess_isSome]
  rw [if_neg h10, if_neg h10]
  by_cases h11 : eqFold k ("service") = true
  · rw [if_pos h11, if_pos h11, isSome_map, unmarshalService_isSome]
  rw [if_neg h11, if_neg h11]
  by_cases h12 : eqFold k ("source") = true
  · rw [if_pos h12, if_pos h12, isSome_map, unmarshalSource_isSome]
  rw [if_neg h12, if_neg h12]
  by_cases h13 : eqFold k ("span") = true
  · rw [if_pos h13, if_pos h13, isSome_map, toIface_isSome]
  rw [if_neg h13, if_neg h13]
  by_cases h14 : eqFold k ("trace") = true
  · rw [if_pos h14, if_pos h14, isSome_map, toIface_isSome]
  rw [if_neg h14, if_neg h14]
  by_cases h15 : eqFold k ("url") = true
  · rw [if_pos h15, if_pos h15, isSome_map, unmarshalURL_isSome]
  rw [if_neg h15, if_neg h15]
  by_cases h16 : eqFold k ("user_agent") = true
  · rw [if_pos h16, if_pos h16, isSome_map, unmarshalUserAgent_isSome]
  rw [if_neg h16, if_neg h16]
  by_cases h17 : eqFold k ("version") = true
  · rw [if_pos h17, if_pos h17, isSome_map, setStrField_isSome]
  rw [if_neg h17, if_neg h17]
  rfl

/-- `json.Unmarshal` succeeds on a scanned value exactly when the value is
well-typed for the `LogEntry` schema. -/
theorem unmarshalLogEntry_isSome (v : Json) :
    (unmarshalLogEntry v).isSome = wellTypedEntry v := by
  cases v
  case obj ms => exact foldMembers_isSome stepEntry memberOkEntry stepEntry_isSome {} ms
  all_goals rfl

/-! ## Shape facts about the rendered timestamp -/

theorem digitVal_lt {c : Char} {d : Nat} (h : digitVal c = some d) : d < 10 := by
  unfold digitVal at h
  split at h
  · injection h with h; omega
  · simp at h

theorem millisOf_lt : ∀ {ds : List Char} {m : Nat}, millisOf ds = some m → m < 1000 := by
  intro ds m h
  unfold millisOf at h
  split at h
  · simp at h
  · rcases Option.map_eq_some'.mp h with ⟨d, hd, rfl⟩
    have := digitVal_lt hd
    omega
  · split at h
    · next hx hy =>
      injection h with h
      have := digitVal_lt hx
      have := digitVal_lt hy
      omega
    · simp at h
  · split at h
    · next hx hy hz =>
      injection h with h
      have := digitVal_lt hx
      have := digitVal_lt hy
      have := digitVal_lt hz
      omega
    · simp at h

theorem fracSplit_lt {rest : List Char} {m : Nat} {r2 : List Char}
    (h : fracSplit rest = some (m, r2)) : m < 1000 := by
  unfold fracSplit at h
  split at h
  · split at h
    · rcases Option.map_eq_some'.mp h with ⟨mv, hmv, heq⟩
      have := millisOf_lt hmv
      injection heq with heq1 heq2
      omega
    · injection h with heq
      injection heq with heq1 heq2
      omega
  · injection h with heq
    injection heq with heq1 heq2
    omega

/-- Every successful RFC3339 parse yields in-range clock fields. -/
theorem parseRFC3339_valid {s : String} {t : GoTime}
    (h : parseRFC3339 s = some t) : t.valid := by
  unfold parseRFC3339 at h
  split at h
  · split at h
    · split at h
      · next hguard =>
        split at h
        · next millis rest2 hfrac =>
          split at h
          · injection h with h
            have hm := fracSplit_lt hfrac
            subst h
            unfold GoTime.valid
            dsimp only
            omega
          · simp at h
        · simp at h
      · simp at h
    · simp at h
  · simp at h

def twoDigitStr (s : String) : Bool :=
  match s.data with
  | [a, b] => isDigitC a && isDigitC b
  | _ => false

def threeDigitStr (s : String) : Bool :=
  match s.data with
  | [a, b, c] => isDigitC a && isDigitC b && isDigitC c
  | _ => false

theorem pad2_shape : ∀ n, n < 100 → twoDigitStr (pad2 n) = true := by decide

set_option maxRecDepth 8192 in
theorem pad3_shape : ∀ n, n < 1000 → threeDigitStr (pad3 n) = true := by decide

theorem twoDigitStr_elim {s : String} (h : twoDigitStr s = true) :
    ∃ a b, s.data = [a, b] ∧ isDigitC a = true ∧ isDigitC b = true := by
  unfold twoDigitStr at h
  split at h
  · next a b heq => exact ⟨a, b, heq, by simpa using h⟩
  · cases h

theorem threeDigitStr_elim {s : String} (h : threeDigitStr s = true) :
    ∃ a b c, s.data = [a, b, c] ∧ isDigitC a = true ∧ isDigitC b = true ∧ isDigitC c = true := by
  unfold threeDigitStr at h
  split at h
  · next a b c heq =>
    refine ⟨a, b, c, heq, ?_⟩
    simpa [and_assoc] using h
  · cases h

theorem strData (a b : String) : (a ++ b).data = a.data ++ b.data := by
  cases a; cases b; rfl

/-- The rendered `HH:MM:SS.mmm` timestamp of any in-range time: twelve
characters of the exact digit/separator shape. -/
theorem formatHMS_shape {t : GoTime} (h : t.valid) :
    isValidHMS (formatHMS t) = true ∧ (formatHMS t).data.length = 12 := by
  obtain ⟨hh, hm, hs, hms⟩ := h
  obtain ⟨a, b, hab, ha, hb⟩ := twoDigitStr_elim (pad2_shape t.hour (by omega))
  obtain ⟨c, d, hcd, hc, hd⟩ := twoDigitStr_elim (pad2_shape t.min (by omega))
  obtain ⟨e, f, hef, he, hf⟩ := twoDigitStr_elim (pad2_shape t.sec (by omega))
  obtain ⟨g, h2, i, hghi, hg, hh2, hi⟩ := threeDigitStr_elim (pad3_shape t.millis (by omega))
  have hdata : (formatHMS t).data = [a, b, ':', c, d, ':', e, f, '.', g, h2, i] := by
    unfold formatHMS
    simp [strData, hab, hcd, hef, hghi]
  constructor
  · unfold isValidHMS
    rw [hdata]
    simp [ha, hb, hc, hd, he, hf, hg, hh2, hi]
  · rw [hdata]
    rfl

/-! ## Branch structure of the formatter and the loop -/

/-- The Go classification condition, read propositionally. -/
theorem printPrettyLog_http {now : GoTime} {e : LogEntry}
    (h1 : e.category = "http") (h2 : e.http.request.method ≠ "") :
    printPrettyLog now e = httpLine ((parseRFC3339 e.timestamp).getD now) e := by
  unfold printPrettyLog
  have hc : (e.category == "http" && e.http.request.method != "") = true := by
    simp [h1, h2]
  rw [if_pos hc]

theorem printPrettyLog_generic {now : GoTime} {e : LogEntry}
    (hn : ¬(e.category = "http" ∧ e.http.request.method ≠ "")) :
    printPrettyLog now e = genericLine ((parseRFC3339 e.timestamp).getD now) e := by
  unfold printPrettyLog
  have hc : ¬((e.category == "http" && e.http.request.method != "") = true) := by
    simp only [Bool.and_eq_true, bne_iff_ne, beq_iff_eq]
    rintro ⟨x, y⟩
    exact hn ⟨x, y⟩
  rw [if_neg hc]

/-- Every chunk the loop emits for a line ends in the newline the
corresponding `Printf`/`Println` wrote. -/
theorem processLine_newline (now : GoTime) (line : String) :
    ∃ s, processLine now line = s ++ "\n" := by
  unfold processLine
  cases hd : decodeLine line with
  | none => exact ⟨_, rfl⟩
  | some e =>
    dsimp only
    unfold printPrettyLog
    by_cases hc : (e.category == "http" && e.http.request.method != "") = true
    · rw [if_pos hc]; exact ⟨_, rfl⟩
    · rw [if_neg hc]; exact ⟨_, rfl⟩

theorem runLoop_length (nows : Nat → GoTime) :
    ∀ (ls : List String) (k : Nat), (runLoop nows k ls).length = ls.length := by
  intro ls
  induction ls with
  | nil => intro k; rfl
  | cons l rest ih =>
    intro k
    rw [runLoop]
    simp only [List.length_cons, ih (k + 1)]

theorem runLoop_get? (nows : Nat → GoTime) :
    ∀ (ls : List String) (k i : Nat),
      (runLoop nows k ls).get? i = (ls.get? i).map fun l => processLine (nows (k + i)) l := by
  intro ls
  induction ls with
  | nil => intro k i; simp [runLoop]
  | cons l rest ih =>
    intro k i
    rw [runLoop]
    cases i with
    | zero => simp
    | succ j =>
      simp only [List.get?]
      rw [ih (k + 1) j]
      have hk : k + 1 + j = k + (j + 1) := by omega
      rw [hk]

/-! ## Concrete inputs for witnesses and counterexamples -/

def exNow0 : GoTime := { hour := 0, min := 0, sec := 0, millis := 0 }

def exNowValid : GoTime := { hour := 12, min := 34, sec := 56, millis := 789 }

def exNow1150 : GoTime := { hour := 11, min := 50, sec := 0, millis := 0 }

def emptyEntry : LogEntry := {}

def exLineMsg5 : String := "\x7b\"message\": 5\x7d"

def exLineNL : String := "\x7b\"message\":\"a\\nb\"\x7d"

def exLineHi : String := "hi"

def exLongLine : String := String.mk (List.replicate 150 'a')

def exTSLine : String := "\x7b\"@timestamp\":\"2025-06-28T11:50:00Z\"\x7d"

def exTSEntry : LogEntry := { timestamp := "2025-06-28T11:50:00Z" }

def exErrEntry : LogEntry :=
  { level := "info", message := "DB failed",
    error := some (Json.obj [("code", Json.str ("TIMEOUT"))]) }

def exHTTPEntry : LogEntry :=
  { category := "http",
    http := { request := { method := "GET" }, response := { statusCode := 200 } },
    url := { path := "/api" },
    event := { duration := 1250000000 },
    userAgent := { original := "curl" },
    message := "ok" }

def exUAEntry : LogEntry :=
  { category := "http",
    http := { request := { method := "GET" } },
    userAgent := { original := String.mk (List.replicate 60 'x') } }

def exDurEntry : LogEntry :=
  { category := "http",
    http := { request := { method := "GET" } },
    event := { duration := 1250000000 } }

/-- A string-append helper: appending the empty string is the identity. -/
theorem strAppend_empty (s : String) : s ++ "" = s := by
  cases s with
  | mk d =>
    show String.mk (d ++ []) = String.mk d
    rw [List.append_nil]

/-! ## The claims -/

/-- C1: a decoded record is rendered with the HTTP-access template iff its
category equals "http" and its HTTP request method is non-empty; every
other record gets the generic template, and there is no third branch. -/
theorem c1_http_classification (now : GoTime) (e : LogEntry) :
    printPrettyLog now e =
      if e.category = "http" ∧ e.http.request.method ≠ "" then
        httpLine ((parseRFC3339 e.timestamp).getD now) e
      else
        genericLine ((parseRFC3339 e.timestamp).getD now) e := by
  by_cases h : e.category = "http" ∧ e.http.request.method ≠ ""
  · rw [if_pos h]
    exact printPrettyLog_http h.1 h.2
  · rw [if_neg h]
    exact printPrettyLog_generic h

/-- C2 counterexample: the line `{"message": 5}` is a syntactically valid
JSON object, yet the decoder signals failure (a type mismatch on the
non-critical `message` field aborts the decode), so the claimed
"object iff decode success" equivalence is false. -/
theorem c2_decode_counterexample :
    parseJson exLineMsg5 = some (Json.obj [("message", Json.num ("5"))]) ∧
    decodeLine exLineMsg5 = none := ⟨rfl, rfl⟩

/-- C2 amended: decode failure occurs iff the line is not syntactically
valid JSON, or its top-level value is neither an object nor `null`, or
some known field's value has a mismatched type (or an integer field out
of `int64` range); any JSON object whose known fields are all well-typed
decodes successfully, even if every field is absent. -/
theorem c2_decode_iff (line : String) :
    (decodeLine line).isSome = true ↔
      ∃ j, parseJson line = some j ∧ wellTypedEntry j = true := by
  cases hp : parseJson line with
  | none =>
    have hd : decodeLine line = none := by
      unfold decodeLine
      rw [hp]
      rfl
    simp [hd, hp]
  | some j =>
    have hd : (decodeLine line).isSome = wellTypedEntry j := by
      unfold decodeLine
      rw [hp]
      exact unmarshalLogEntry_isSome j
    rw [hd]
    constructor
    · intro h
      exact ⟨j, rfl, h⟩
    · rintro ⟨j2, hj2, h2⟩
      injection hj2 with hj2
      rw [hj2]
      exact h2

/-- C3 counterexample: a decoded record whose message field contains an
(escaped) newline makes the program emit two output lines for a single
input line, so "exactly one output line per input line" fails. -/
theorem c3_line_counterexample :
    decodeLine exLineNL = some { message := "a\nb" } ∧
    (processLine exNow0 exLineNL).data.count '\n' = 2 := ⟨rfl, rfl⟩

/-- C3 amended: for every finite input stream the program emits exactly
one newline-terminated output chunk per input line, in the same relative
order one-to-one; each chunk ends with a newline (and is a single output
line exactly when the record's rendered fields contain no embedded
newline characters). -/
theorem c3_one_chunk_per_line (nows : Nat → GoTime) (ls : List String) :
    (runLoop nows 0 ls).length = ls.length ∧
    (∀ i, (runLoop nows 0 ls).get? i =
      (ls.get? i).map fun l => processLine (nows i) l) ∧
    ∀ i l, ls.get? i = some l → ∃ s, processLine (nows i) l = s ++ "\n" := by
  refine ⟨runLoop_length nows ls 0, fun i => ?_,
    fun i l hl => processLine_newline (nows i) l⟩
  have h := runLoop_get? nows ls 0 i
  simpa using h

/-- C3 witness: the amended loop facts at a concrete one-line stream. -/
theorem c3_one_chunk_witness :
    (runLoop (fun _ => exNow0) 0 [exLineHi]).length = [exLineHi].length ∧
    ∃ s, processLine exNow0 exLineHi = s ++ "\n" := by
  have h := c3_one_chunk_per_line (fun _ => exNow0) [exLineHi]
  exact ⟨h.1, h.2.2 0 exLineHi rfl⟩

/-- C4: a line that fails JSON decoding is echoed unchanged when at most
120 characters long, and otherwise cut to its first 120 characters plus
`...` (123 characters in total). -/
theorem c4_fallback (now : GoTime) (line : String)
    (h : decodeLine line = none) :
    processLine now line =
      (if 120 < line.data.length then strTake line 120 ++ "..." else line) ++ "\n" ∧
    (120 < line.data.length → (strTake line 120 ++ "...").data.length = 123) := by
  constructor
  · unfold processLine
    rw [h]
    rfl
  · intro hl
    unfold strTake
    rw [strData, List.length_append, List.length_take]
    have h3 : ("...").data.length = 3 := rfl
    rw [h3]
    omega

set_option maxRecDepth 8192 in
/-- C4 witness: a 150-character non-JSON line is cut to 120 plus `...`. -/
theorem c4_fallback_witness :
    (processLine exNow0 exLongLine =
      (if 120 < exLongLine.data.length then strTake exLongLine 120 ++ "..."
        else exLongLine) ++ "\n") ∧
    (120 < exLongLine.data.length →
      (strTake exLongLine 120 ++ "...").data.length = 123) :=
  c4_fallback exNow0 exLongLine rfl

/-- C6: a record rendered with the generic template produces
`<timestamp> [<level>] <message>`, and the ` error=<stringified value>`
suffix is appended exactly when the record's error field is present and
non-null (`Option.some` here; Go `nil` covers both JSON `null` and an
absent field), whatever the shape of the value. -/
theorem c6_generic_error_suffix (now : GoTime) (e : LogEntry)
    (h : ¬(e.category = "http" ∧ e.http.request.method ≠ "")) :
    (e.error = none →
      printPrettyLog now e =
        (formatHMS ((parseRFC3339 e.timestamp).getD now) ++ " [" ++
          levelDisp e.level ++ "] " ++ e.message) ++ "\n") ∧
    ∀ v, e.error = some v →
      printPrettyLog now e =
        (formatHMS ((parseRFC3339 e.timestamp).getD now) ++ " [" ++
          levelDisp e.level ++ "] " ++ e.message ++ (" error=" ++ goV v)) ++ "\n" := by
  constructor
  · intro he
    rw [printPrettyLog_generic h]
    unfold genericLine errSuffix
    rw [he]
    rw [strAppend_empty]
  · intro v hv
    rw [printPrettyLog_generic h]
    unfold genericLine errSuffix
    rw [hv]

/-- C6 witness: the spec's structured-error scenario, rendered exactly. -/
theorem c6_generic_error_witness :
    printPrettyLog exNow1150 exErrEntry =
      "11:50:00.000 [info] DB failed error=map[code:TIMEOUT]\n" := by
  have h := (c6_generic_error_suffix exNow1150 exErrEntry (by decide)).2
    (Json.obj [("code", Json.str ("TIMEOUT"))]) rfl
  rw [h]
  rfl

/-- C7: the HTTP-access template's displayed duration is the record's
nanosecond duration divided by 1,000,000 with Go's truncating integer
division; in particular 1250000000 renders as `1250ms`. -/
theorem c7_duration (now : GoTime) (e : LogEntry)
    (h1 : e.category = "http") (h2 : e.http.request.method ≠ "") :
    printPrettyLog now e =
      (formatHMS ((parseRFC3339 e.timestamp).getD now) ++ " [" ++
        levelDisp e.level ++ "] " ++ padRight e.http.request.method 4 ++ " " ++
        toString e.http.response.statusCode ++ " " ++ e.url.path ++ " " ++
        (toString (Int.tdiv e.event.duration 1000000) ++ "ms") ++ " " ++
        "ua=" ++ uaDisp e.userAgent.original ++ " " ++ e.message) ++ "\n" ∧
    (e.event.duration = 1250000000 → durMs e.event.duration = "1250ms") := by
  constructor
  · rw [printPrettyLog_http h1 h2]
    rfl
  · intro hd
    rw [hd]
    rfl

/-- C7 witness: the duration conversion at the spec's sample value. -/
theorem c7_duration_witness : durMs exHTTPEntry.event.duration = "1250ms" :=
  (c7_duration exNow1150 exHTTPEntry rfl (by decide)).2 rfl

/-- C8: in the HTTP-access template the user agent is truncated to exactly
50 characters when longer than 50, and rendered unchanged otherwise,
after the `ua=` prefix. -/
theorem c8_user_agent (now : GoTime) (e : LogEntry)
    (h1 : e.category = "http") (h2 : e.http.request.method ≠ "") :
    printPrettyLog now e =
      (formatHMS ((parseRFC3339 e.timestamp).getD now) ++ " [" ++
        levelDisp e.level ++ "] " ++ padRight e.http.request.method 4 ++ " " ++
        toString e.http.response.statusCode ++ " " ++ e.url.path ++ " " ++
        durMs e.event.duration ++ " " ++
        "ua=" ++ uaDisp e.userAgent.original ++ " " ++ e.message) ++ "\n" ∧
    (50 < e.userAgent.original.data.length →
      (uaDisp e.userAgent.original).data.length = 50) ∧
    (e.userAgent.original.data.length ≤ 50 →
      uaDisp e.userAgent.original = e.userAgent.original) := by
  refine ⟨?_, ?_, ?_⟩
  · rw [printPrettyLog_http h1 h2]
    rfl
  · intro h
    unfold uaDisp
    rw [if_pos h]
    show (e.userAgent.original.data.take 50).length = 50
    rw [List.length_take]
    omega
  · intro h
    unfold uaDisp
    rw [if_neg (by omega)]

set_option maxRecDepth 8192 in
/-- C8 witness: a 60-character user agent displays as exactly 50. -/
theorem c8_user_agent_witness :
    (uaDisp exUAEntry.userAgent.original).data.length = 50 :=
  (c8_user_agent exNow1150 exUAEntry rfl (by decide)).2.1 (by decide)

/-- C9: the repository carries two formatter implementations that are not
equivalent — the primary path divides the nanosecond duration by
1,000,000, the older duplicate path by 1,000 — so an HTTP access record
with non-zero duration renders different millisecond values (and
different lines) under the two. -/
theorem c9_inconsistent_duration_paths :
    ∃ (e : LogEntry) (now : GoTime),
      e.category = "http" ∧ e.http.request.method ≠ "" ∧
      e.event.duration ≠ 0 ∧
      durMs e.event.duration ≠ durMsOld e.event.duration ∧
      printPrettyLog now e ≠ printPrettyLogOld now e := by
  refine ⟨exDurEntry, exNow0, ?_, ?_, ?_, ?_, ?_⟩ <;> decide

/-- C10: for an input line whose timestamp parses as RFC3339, the rendered
output is a function of the line alone — two runs at different wall-clock
times produce identical output. -/
theorem c10_deterministic (line : String) (e : LogEntry) (t : GoTime)
    (hd : decodeLine line = some e) (hp : parseRFC3339 e.timestamp = some t)
    (n1 n2 : GoTime) :
    processLine n1 line = processLine n2 line := by
  unfold processLine
  rw [hd]
  dsimp only
  unfold printPrettyLog
  rw [hp]
  simp only [Option.getD_some]

set_option maxRecDepth 8192 in
/-- C10 witness: a concrete line with a valid timestamp renders the same
at two different wall-clock times. -/
theorem c10_deterministic_witness :
    processLine exNow0 exTSLine = processLine exNowValid exTSLine :=
  c10_deterministic exTSLine exTSEntry
    { hour := 11, min := 50, sec := 0, millis := 0 } rfl rfl exNow0 exNowValid
